import Mathlib

/-!
# Verification of the embedding index cache ("Matcher") of divi_face_recognition

Shallow embedding of `app/services/face_recognition/matcher.py`
(class `RedisFaceMatcher`) and of the score reporting of
`app/services/face_recognition.py` (class `FaceRecognition`).

Modelling conventions:
* Embeddings are lists of real numbers (`Vec`); numpy `float32` arithmetic is
  modelled by exact real arithmetic.
* The Redis keyspace holding, per collection, the pickled FAISS index and the
  pickled id map is modelled as `Store : String → Option Snapshot`.  The two
  Redis keys `faiss_index:{c}` and `faiss_id_map:{c}` are always written
  together through one `MULTI/EXEC` pipeline (matcher.py lines 117-121,
  216-220, 265-269, 327-335, 353-362), which we model as a single atomic
  update of the paired `Snapshot`.
* Distributed-lock state is `Locks : String → Option Int` (lock key ↦ owner
  pid).  Whether `acquire_lock` succeeded within its timeout depends on other
  processes and on timing, so each mutating operation takes the outcome as a
  boolean parameter `acquired`.
* Any exception raised between loading and the final pipeline commit
  (numpy/faiss/Mongo errors) is modelled by a boolean parameter `fault`; the
  operation then performs no write and reports the error (matcher.py
  `except ... raise` blocks), except where the code swallows it.
* Operations return the new store paired with `Option String`: `some msg`
  models an exception propagating to the caller, `none` a normal return.
-/

namespace DiviFace

/-- A face embedding: numpy 1-d `float32` array, modelled over `ℝ`. -/
abbrev Vec := List ℝ

/-- Inner product of two vectors (`faiss.IndexFlatIP` similarity). -/
def dot (u v : Vec) : ℝ := (List.zipWith (· * ·) u v).sum

/-- Sum of squares of the entries of `v`. -/
def sumSq (v : Vec) : ℝ := dot v v

/-- Euclidean norm used by `faiss.normalize_L2`. -/
noncomputable def l2norm (v : Vec) : ℝ := Real.sqrt (sumSq v)

/-- `faiss.normalize_L2` applied to one row: divide every entry by the L2
norm.  (In Lean, division by a zero norm yields the zero vector; the service
never stores a zero embedding.) -/
noncomputable def normalizeL2 (v : Vec) : Vec := v.map (· / l2norm v)

/-- Elementwise sum of two equal-length vectors (numpy `+`). -/
def vadd (u v : Vec) : Vec := List.zipWith (· + ·) u v

/-- `np.mean(vs, axis=0)`: elementwise mean of a non-empty list of
equal-length vectors.  (`np.mean` of an empty stack is an error in numpy;
every call site passes a non-empty list, and we return `[]` there.) -/
noncomputable def vmean : List Vec → Vec
  | [] => []
  | v :: rest => (rest.foldl vadd v).map (· / (rest.length + 1 : ℕ))

/-- The paired state persisted for one collection: the vector list held by
the pickled `faiss.IndexFlatIP` and the parallel pickled `id_map` of person
ids. -/
structure Snapshot where
  vectors : List Vec
  labels : List Int

/-- The committed-state invariant: the FAISS vector count equals the id-map
length. -/
def SnapInv (s : Snapshot) : Prop := s.vectors.length = s.labels.length

/-- The Redis keyspace restricted to the per-collection snapshot pairs. -/
def Store := String → Option Snapshot

/-- Commit a snapshot for collection `c`: one atomic pipeline writing both
keys. -/
def Store.set (st : Store) (c : String) (snap : Snapshot) : Store :=
  fun c' => if c' = c then some snap else st c'

/-- Every committed snapshot in the store satisfies `SnapInv`. -/
def StoreInv (st : Store) : Prop := ∀ c snap, st c = some snap → SnapInv snap

/-- The lock keyspace: `lock:{collection}` ↦ owner pid. -/
def Locks := String → Option Int

/-- Redis `DEL` of one lock key. -/
def Locks.del (lk : Locks) (key : String) : Locks :=
  fun k => if k = key then none else lk k

/-- `RedisFaceMatcher.release_lock` (matcher.py lines 58-62): read the lock
value and delete the entry only when it still equals the caller's pid. -/
def release_lock (lk : Locks) (key : String) (pid : Int) : Locks :=
  match lk key with
  | none => lk
  | some owner => if owner = pid then lk.del key else lk

/-- A document of a Mongo face collection, as read by `create_index`:
`face.get("embedding")` and `face.get("person_id")` may each be missing. -/
structure FaceDoc where
  person_id : Option Int
  embedding : Option Vec

/-- The `faces` list built by `create_index` (matcher.py lines 86-91): keep
`(person_id, embedding)` for documents where both fields are non-null. -/
def keptPairs (docs : List FaceDoc) : List (Int × Vec) :=
  docs.filterMap fun f =>
    match f.person_id, f.embedding with
    | some p, some e => some (p, e)
    | _, _ => none

/-- Keys of the insertion-ordered dict `embeddings_by_person` (matcher.py
lines 96-101): distinct person ids in order of first occurrence. -/
def distinctKeys (pairs : List (Int × Vec)) : List Int :=
  pairs.foldl (fun acc pe => if pe.1 ∈ acc then acc else acc ++ [pe.1]) []

/-- The embeddings grouped under one person id, in iteration order. -/
def groupEmbs (pairs : List (Int × Vec)) (p : Int) : List Vec :=
  (pairs.filter fun pe => pe.1 = p).map (·.2)

/-- The pure build step of `create_index` (matcher.py lines 86-121): group
the kept records by person id, average each group, L2-normalize every row of
the stacked averages, and pair them with the person-id list.  Returns `none`
when there are no kept records (`if not faces: return`, line 93). -/
noncomputable def createIndexCompute (docs : List FaceDoc) : Option Snapshot :=
  let kept := keptPairs docs
  if kept.isEmpty then none
  else
    let persons := distinctKeys kept
    some ⟨persons.map (fun p => normalizeL2 (vmean (groupEmbs kept p))), persons⟩

/-- `RedisFaceMatcher.create_index` (matcher.py lines 70-124).
`acquired` is the outcome of `acquire_lock`; on failure the code logs a
warning and returns normally (lines 77-79) — no exception.  `fault` models
an exception between the existence re-check and the pipeline commit; it
propagates (the `try` has only a `finally`). -/
noncomputable def create_index (st : Store) (c : String) (acquired : Bool)
    (docs : List FaceDoc) (fault : Bool) : Store × Option String :=
  if (st c).isSome then (st, none)
  else if !acquired then (st, none)
  else if (st c).isSome then (st, none)
  else if fault then (st, some "create_index error")
  else
    match createIndexCompute docs with
    | none => (st, none)
    | some snap => (st.set c snap, none)

/-- `faiss.IndexFlatIP.search(query, 1)` over the stored vector list: the
running maximum of the inner products, ties resolved to the lowest insertion
index (the flat scan only replaces the incumbent on a strictly greater
score).  `none` models the empty index, where FAISS pads the result with
index `-1`: on a committed (equal-length, hence also empty) id map,
`id_map[-1]` then raises `IndexError`, which `search`'s `except` turns into
the sentinel. -/
noncomputable def top1 (q : Vec) : List Vec → Option (ℝ × Nat)
  | [] => none
  | v :: vs =>
    match top1 q vs with
    | none => some (dot q v, 0)
    | some (s, i) => if s > dot q v then some (s, i + 1) else some (dot q v, 0)

/-- The body of `RedisFaceMatcher.search` once both blobs are present
(matcher.py lines 140-151): normalize the query, take the top-1 inner
product, and look the winning position up in the id map.  A failed lookup
(`IndexError`) is caught by the surrounding `except` and yields the
`(0.0, 0)` sentinel. -/
noncomputable def searchSnapshot (snap : Snapshot) (q : Vec) : ℝ × Int :=
  match top1 (normalizeL2 q) snap.vectors with
  | none => (0, 0)
  | some (s, i) =>
    match snap.labels.get? i with
    | none => (0, 0)
    | some pid => (s, pid)

/-- `RedisFaceMatcher.search` (matcher.py lines 126-155): read both blobs
(no lock), return the `(0.0, 0)` sentinel when either is missing, and catch
every internal exception (`fault`) into the same sentinel. -/
noncomputable def search (st : Store) (c : String) (q : Vec) (fault : Bool) :
    ℝ × Int :=
  if fault then (0, 0)
  else
    match st c with
    | none => (0, 0)
    | some snap => searchSnapshot snap q

/-- `search` as a transition on the full service state: it only reads, so
the snapshot store and the lock table are returned untouched. -/
noncomputable def searchFull (st : Store) (lk : Locks) (c : String) (q : Vec)
    (fault : Bool) : (Store × Locks) × (ℝ × Int) :=
  ((st, lk), search st c q fault)

/-- `RedisFaceMatcher.add_face` (matcher.py lines 157-227).  When the
collection key is absent, delegates to `create_index` and returns (lines
161-163).  Otherwise: lock failure raises (lines 165-166); the person's
stored embeddings `personEmbs` are pulled from Mongo, the new embedding is
appended, the elementwise mean is taken and L2-normalized; a person already
in the id map has its single vector rebuilt in place (`new_index.add` at
position `idx`, `reconstruct(i)` elsewhere — i.e. `List.set`), otherwise the
vector and the person id are appended; the pair is committed by one
pipeline. -/
noncomputable def add_face (st : Store) (c : String) (e : Vec) (p : Int)
    (acquired : Bool) (docs : List FaceDoc) (personEmbs : List Vec)
    (fault : Bool) : Store × Option String :=
  match st c with
  | none => create_index st c acquired docs fault
  | some snap =>
    if !acquired then (st, some "Could not acquire lock")
    else if fault then (st, some "add_face error")
    else
      let nv := normalizeL2 (vmean (personEmbs ++ [e]))
      if p ∈ snap.labels then
        (st.set c ⟨snap.vectors.set (snap.labels.indexOf p) nv, snap.labels⟩,
          none)
      else
        (st.set c ⟨snap.vectors ++ [nv], snap.labels ++ [p]⟩, none)

/-- The delete loop of `delete_person` / `delete_face` (matcher.py lines
256-263 and 318-325): `for i in range(ntotal)`, skipping `idx_to_remove`,
re-adding `reconstruct(i)` and `id_map[i]`.  `reconstruct(i)` is defined for
every `i < ntotal`; `id_map[i]` raises `IndexError` when the id map is
shorter than the vector count (then nothing is committed, modelled by
`none`).  Otherwise the result is both lists with position `idx` removed
(the id map first truncated to the vector count the loop ranges over). -/
def rebuildWithout (vecs : List Vec) (labels : List Int) (idx : Nat) :
    Option (List Vec × List Int) :=
  if vecs.length ≤ labels.length then
    some (vecs.eraseIdx idx, (labels.take vecs.length).eraseIdx idx)
  else none

/-- `RedisFaceMatcher.delete_person` (matcher.py lines 229-276): no-op when
the collection key is absent; lock failure raises; a person id absent from
the id map is a no-op; otherwise the index is rebuilt without the first
position carrying `p` and committed by one pipeline. -/
noncomputable def delete_person (st : Store) (c : String) (p : Int)
    (acquired : Bool) (fault : Bool) : Store × Option String :=
  match st c with
  | none => (st, none)
  | some snap =>
    if !acquired then (st, some "Could not acquire lock")
    else if fault then (st, some "delete_person error")
    else if p ∈ snap.labels then
      match rebuildWithout snap.vectors snap.labels (snap.labels.indexOf p) with
      | some (vs, ls) => (st.set c ⟨vs, ls⟩, none)
      | none => (st, some "IndexError")
    else (st, none)

/-- `RedisFaceMatcher.delete_face` (matcher.py lines 278-369): the person's
remaining embeddings `personEmbs` are pulled from Mongo first; if none
remain the person's position is removed as in `delete_person`; otherwise the
person's vector is replaced by the normalized mean of the remaining
embeddings (id map unchanged).  Nothing is committed when the person id is
not in the id map. -/
noncomputable def delete_face (st : Store) (c : String) (p : Int)
    (acquired : Bool) (personEmbs : List Vec) (fault : Bool) :
    Store × Option String :=
  match st c with
  | none => (st, none)
  | some snap =>
    if !acquired then (st, some "Could not acquire lock")
    else if fault then (st, some "delete_face error")
    else if personEmbs.isEmpty then
      if p ∈ snap.labels then
        match rebuildWithout snap.vectors snap.labels (snap.labels.indexOf p) with
        | some (vs, ls) => (st.set c ⟨vs, ls⟩, none)
        | none => (st, some "IndexError")
      else (st, none)
    else
      let nv := normalizeL2 (vmean personEmbs)
      if p ∈ snap.labels then
        (st.set c ⟨snap.vectors.set (snap.labels.indexOf p) nv, snap.labels⟩,
          none)
      else (st, none)

/-- Python `round(x, 3)`: round to the nearest multiple of `1/1000`.
(Python rounds exact midpoints to even, Mathlib's `round` rounds them up;
the two agree away from exact odd multiples of `1/2000`, and every value
this development evaluates is such a point.) -/
noncomputable def round3 (x : ℝ) : ℝ := (round (x * 1000) : ℤ) / 1000

/-- The score post-processing of `FaceRecognition.search_face`
(app/services/face_recognition.py line 44):
`abs(round(scores[0][0] * 100, 3))`. -/
noncomputable def reportScore (s : ℝ) : ℝ := |round3 (s * 100)|

/-- An empty snapshot store (no collection has been created). -/
def st0 : Store := fun _ => none

/-- An empty lock table. -/
def lk0 : Locks := fun _ => none

/-- A lock table where the lock of collection `faces` is held by pid 42. -/
def lk1 : Locks := fun k => if k = "lock:faces" then some 42 else none

/-- A one-person committed snapshot: the single unit vector `[1, 0]` labelled
with person id 7. -/
noncomputable def snap1 : Snapshot := ⟨[[1, 0]], [7]⟩

/-- A store where collection `faces` holds `snap1`. -/
noncomputable def st1 : Store := fun c => if c = "faces" then some snap1 else none

/-- A 512-dimensional unit basis embedding. -/
noncomputable def e512a : Vec := (1 : ℝ) :: List.replicate 511 0

/-- A 512-dimensional all-ones embedding. -/
noncomputable def e512b : Vec := List.replicate 512 (1 : ℝ)

/-- A source collection of two valid 512-dimensional records that share one
person id. -/
noncomputable def docsDup : List FaceDoc :=
  [⟨some 7, some e512a⟩, ⟨some 7, some e512b⟩]

/-! ## Basic lemmas about the store, the numeric kernel and the index build -/

theorem Store.set_self (st : Store) (c : String) (snap : Snapshot) :
    st.set c snap c = some snap := by
  simp [Store.set]

theorem Store.set_ne (st : Store) {c c' : String} (snap : Snapshot)
    (h : c' ≠ c) : st.set c snap c' = st c' := by
  simp [Store.set, h]

theorem StoreInv.set (hst : StoreInv st) {snap : Snapshot} (h : SnapInv snap)
    (c : String) : StoreInv (Store.set st c snap) := by
  intro c' snap' hc'
  by_cases hcc : c' = c
  · subst hcc
    rw [Store.set_self] at hc'
    cases hc'
    exact h
  · rw [Store.set_ne st snap hcc] at hc'
    exact hst c' snap' hc'

theorem sumSq_nil : sumSq [] = 0 := rfl

theorem sumSq_cons (x : ℝ) (v : Vec) : sumSq (x :: v) = x * x + sumSq v := by
  simp [sumSq, dot]

theorem sumSq_nonneg (v : Vec) : 0 ≤ sumSq v := by
  induction v with
  | nil => simp [sumSq_nil]
  | cons x v ih => rw [sumSq_cons]; nlinarith

theorem dot_nil_left (v : Vec) : dot [] v = 0 := rfl

theorem dot_nil_right (v : Vec) : dot v [] = 0 := by
  cases v <;> rfl

theorem dot_cons_cons (x y : ℝ) (u v : Vec) :
    dot (x :: u) (y :: v) = x * y + dot u v := by
  simp [dot]

theorem sumSq_map_div (v : Vec) (r : ℝ) :
    sumSq (v.map (· / r)) = sumSq v / r ^ 2 := by
  induction v with
  | nil => simp [sumSq_nil]
  | cons x v ih =>
      simp only [List.map_cons, sumSq_cons, ih]
      rw [div_mul_div_comm, ← div_add_div_same]
      ring_nf

theorem sumSq_normalizeL2 {v : Vec} (h : sumSq v ≠ 0) :
    sumSq (normalizeL2 v) = 1 := by
  rw [normalizeL2, sumSq_map_div, l2norm, Real.sq_sqrt (sumSq_nonneg v),
    div_self h]

theorem dot_sq_le_sumSq_mul (u v : Vec) :
    (dot u v) ^ 2 ≤ sumSq u * sumSq v := by
  induction u generalizing v with
  | nil =>
      simp [dot_nil_left, sumSq_nil]
  | cons a u ih =>
      cases v with
      | nil =>
          simp [dot_nil_right, sumSq_nil]
      | cons b v =>
          rw [dot_cons_cons, sumSq_cons, sumSq_cons]
          have hu := sumSq_nonneg u
          have hv := sumSq_nonneg v
          have hIH := ih v
          have habs : 2 * (a * b) * dot u v ≤ a * a * sumSq v + b * b * sumSq u := by
            have h1 : (2 * (a * b) * dot u v) ^ 2 ≤
                (a * a * sumSq v + b * b * sumSq u) ^ 2 := by
              nlinarith [sq_nonneg (a * a * sumSq v - b * b * sumSq u),
                sq_nonneg (a * b), mul_nonneg hu hv]
            have h2 : 0 ≤ a * a * sumSq v + b * b * sumSq u := by nlinarith
            calc 2 * (a * b) * dot u v ≤ |2 * (a * b) * dot u v| := le_abs_self _
              _ = Real.sqrt ((2 * (a * b) * dot u v) ^ 2) :=
                  (Real.sqrt_sq_eq_abs _).symm
              _ ≤ Real.sqrt ((a * a * sumSq v + b * b * sumSq u) ^ 2) :=
                  Real.sqrt_le_sqrt h1
              _ = |a * a * sumSq v + b * b * sumSq u| := Real.sqrt_sq_eq_abs _
              _ = a * a * sumSq v + b * b * sumSq u := abs_of_nonneg h2
          nlinarith

theorem createIndexCompute_some {docs : List FaceDoc} {snap : Snapshot}
    (h : createIndexCompute docs = some snap) :
    snap.labels = distinctKeys (keptPairs docs) ∧
      snap.vectors = (distinctKeys (keptPairs docs)).map
        (fun p => normalizeL2 (vmean (groupEmbs (keptPairs docs) p))) := by
  unfold createIndexCompute at h
  by_cases he : (keptPairs docs).isEmpty
  · simp [he] at h
  · simp only [he, Bool.false_eq_true, if_false] at h
    cases h
    exact ⟨rfl, rfl⟩

theorem createIndexCompute_inv {docs : List FaceDoc} {snap : Snapshot}
    (h : createIndexCompute docs = some snap) : SnapInv snap := by
  obtain ⟨hl, hv⟩ := createIndexCompute_some h
  rw [SnapInv, hl, hv, List.length_map]

theorem rebuildWithout_eq {vecs : List Vec} {labels : List Int}
    (h : vecs.length = labels.length) (idx : ℕ) :
    rebuildWithout vecs labels idx =
      some (vecs.eraseIdx idx, labels.eraseIdx idx) := by
  rw [rebuildWithout, if_pos (le_of_eq h), h, List.take_length]

theorem eraseIdx_length_eq {vecs : List Vec} {labels : List Int}
    (h : vecs.length = labels.length) (idx : ℕ) :
    (vecs.eraseIdx idx).length = (labels.eraseIdx idx).length := by
  by_cases hidx : idx < vecs.length
  · have h1 := List.length_eraseIdx_add_one hidx
    have h2 := List.length_eraseIdx_add_one (h ▸ hidx)
    omega
  · rw [List.eraseIdx_of_length_le (le_of_not_lt hidx),
      List.eraseIdx_of_length_le (h ▸ le_of_not_lt hidx), h]

theorem distinctKeys_foldl_mem (pairs : List (Int × Vec)) (acc : List Int)
    (x : Int) :
    (x ∈ pairs.foldl
        (fun acc pe => if pe.1 ∈ acc then acc else acc ++ [pe.1]) acc) ↔
      x ∈ acc ∨ x ∈ pairs.map Prod.fst := by
  induction pairs generalizing acc with
  | nil => simp
  | cons pe ps ih =>
      rw [List.foldl_cons, ih]
      by_cases hm : pe.1 ∈ acc
      · simp only [hm, if_pos, List.map_cons, List.mem_cons]
        constructor
        · rintro (hx | hx)
          · exact Or.inl hx
          · exact Or.inr (Or.inr hx)
        · rintro (hx | hx | hx)
          · exact Or.inl hx
          · exact Or.inl (hx ▸ hm)
          · exact Or.inr hx
      · rw [if_neg hm]
        simp only [List.map_cons, List.mem_cons, List.mem_append,
          List.mem_singleton]
        tauto

theorem distinctKeys_foldl_nodup (pairs : List (Int × Vec)) (acc : List Int)
    (h : acc.Nodup) :
    (pairs.foldl
        (fun acc pe => if pe.1 ∈ acc then acc else acc ++ [pe.1]) acc).Nodup := by
  induction pairs generalizing acc with
  | nil => exact h
  | cons pe ps ih =>
      rw [List.foldl_cons]
      by_cases hm : pe.1 ∈ acc
      · rw [if_pos hm]; exact ih acc h
      · rw [if_neg hm]
        exact ih _ (by simp [List.nodup_append, h, hm])

theorem distinctKeys_mem (pairs : List (Int × Vec)) (x : Int) :
    x ∈ distinctKeys pairs ↔ x ∈ pairs.map Prod.fst := by
  rw [distinctKeys, distinctKeys_foldl_mem]
  simp

theorem distinctKeys_nodup (pairs : List (Int × Vec)) :
    (distinctKeys pairs).Nodup :=
  distinctKeys_foldl_nodup pairs [] List.nodup_nil

theorem distinctKeys_toFinset (pairs : List (Int × Vec)) :
    (distinctKeys pairs).toFinset = (pairs.map Prod.fst).toFinset := by
  ext x
  simp [distinctKeys_mem]

theorem distinctKeys_length (pairs : List (Int × Vec)) :
    (distinctKeys pairs).length = (pairs.map Prod.fst).toFinset.card := by
  rw [← distinctKeys_toFinset,
    List.toFinset_card_of_nodup (distinctKeys_nodup pairs)]

theorem top1_isSome (q : Vec) {vs : List Vec} (h : vs ≠ []) :
    (top1 q vs).isSome := by
  cases vs with
  | nil => exact absurd rfl h
  | cons v vs =>
      rw [top1]
      cases top1 q vs with
      | none => rfl
      | some si =>
          obtain ⟨s, i⟩ := si
          dsimp only
          split <;> rfl

theorem top1_spec (q : Vec) {vs : List Vec} {s : ℝ} {i : ℕ}
    (h : top1 q vs = some (s, i)) :
    i < vs.length ∧ ∃ v ∈ vs, s = dot q v := by
  induction vs generalizing s i with
  | nil => simp [top1] at h
  | cons v vs ih =>
      rw [top1] at h
      cases htl : top1 q vs with
      | none =>
          rw [htl] at h
          cases h
          exact ⟨Nat.succ_pos _, v, List.mem_cons_self v vs, rfl⟩
      | some si =>
          obtain ⟨s', i'⟩ := si
          rw [htl] at h
          dsimp only at h
          obtain ⟨hi', u, hu, hs'⟩ := ih htl
          split at h
          · cases h
            exact ⟨Nat.succ_lt_succ hi', u, List.mem_cons_of_mem v hu, hs'⟩
          · cases h
            exact ⟨Nat.succ_pos _, v, List.mem_cons_self v vs, rfl⟩

theorem searchSnapshot_cases (snap : Snapshot) (q : Vec) :
    searchSnapshot snap q = (0, 0) ∨ (searchSnapshot snap q).2 ∈ snap.labels := by
  rw [searchSnapshot]
  cases ht : top1 (normalizeL2 q) snap.vectors with
  | none => exact Or.inl rfl
  | some si =>
      obtain ⟨s, i⟩ := si
      dsimp only
      cases hg : snap.labels.get? i with
      | none => exact Or.inl rfl
      | some pid => exact Or.inr (List.get?_mem hg)

theorem searchSnapshot_raw_score {snap : Snapshot} (q : Vec)
    (hne : snap.vectors ≠ []) (hinv : SnapInv snap) :
    ∃ v ∈ snap.vectors, (searchSnapshot snap q).1 = dot (normalizeL2 q) v := by
  obtain ⟨⟨s, i⟩, ht⟩ := Option.isSome_iff_exists.1 (top1_isSome (normalizeL2 q) hne)
  obtain ⟨hi, v, hv, hs⟩ := top1_spec (normalizeL2 q) ht
  refine ⟨v, hv, ?_⟩
  rw [searchSnapshot, ht]
  have hil : i < snap.labels.length := hinv ▸ hi
  dsimp only
  rw [List.get?_eq_get hil]
  dsimp only
  exact hs

theorem zip_eraseIdx_filter :
    ∀ (labels : List Int) (vecs : List Vec) (p : Int),
      vecs.length = labels.length → labels.Nodup → p ∈ labels →
      (vecs.eraseIdx (labels.indexOf p)).zip (labels.eraseIdx (labels.indexOf p)) =
        (vecs.zip labels).filter (fun pr => pr.2 ≠ p)
  | [], _, p, _, _, hp => absurd hp (List.not_mem_nil p)
  | b :: ls, [], p, hlen, _, _ => by simp at hlen
  | b :: ls, a :: vs, p, hlen, hnd, hp => by
      by_cases hb : b = p
      · subst hb
        rw [List.indexOf_cons_self]
        have hnotin : b ∉ ls := (List.nodup_cons.1 hnd).1
        simp only [List.eraseIdx_zero, List.tail_cons, List.zip_cons_cons,
          List.filter_cons]
        have hcond : (decide ¬((a, b) : Vec × Int).2 = b) = false := by simp
        rw [hcond, if_neg Bool.false_ne_true]
        refine (List.filter_eq_self.2 ?_).symm
        intro pr hpr
        simp only [decide_eq_true_eq]
        intro hb2
        exact hnotin (hb2 ▸ (List.of_mem_zip hpr).2)
      · have hpls : p ∈ ls := by
          rcases List.mem_cons.1 hp with h | h
          · exact absurd h.symm hb
          · exact h
        have hbeq : (b == p) = false := by simp [hb]
        rw [List.indexOf_cons, hbeq]
        simp only [cond_false, List.eraseIdx_cons_succ, List.zip_cons_cons,
          List.filter_cons]
        have hcond : (decide ¬((a, b) : Vec × Int).2 = p) = true := by simp [hb]
        rw [hcond, if_pos rfl]
        rw [zip_eraseIdx_filter ls vs p (by simpa using hlen)
          (List.nodup_cons.1 hnd).2 hpls]

/-! ## Outcome enumeration for each mutating operation -/

theorem create_index_cases (st : Store) (c : String) (acquired : Bool)
    (docs : List FaceDoc) (fault : Bool) :
    create_index st c acquired docs fault = (st, none) ∨
    create_index st c acquired docs fault = (st, some "create_index error") ∨
    ∃ snap, createIndexCompute docs = some snap ∧
      create_index st c acquired docs fault = (st.set c snap, none) := by
  rw [create_index]
  split_ifs
  · exact Or.inl rfl
  · exact Or.inl rfl
  · exact Or.inr (Or.inl rfl)
  · cases hcc : createIndexCompute docs with
    | none => exact Or.inl rfl
    | some snap => exact Or.inr (Or.inr ⟨snap, rfl, rfl⟩)

theorem add_face_cases (st : Store) (c : String) (e : Vec) (p : Int)
    (acquired : Bool) (docs : List FaceDoc) (personEmbs : List Vec)
    (fault : Bool) :
    (st c = none ∧ add_face st c e p acquired docs personEmbs fault =
        create_index st c acquired docs fault) ∨
    ∃ snap, st c = some snap ∧
      (add_face st c e p acquired docs personEmbs fault =
          (st, some "Could not acquire lock") ∨
       add_face st c e p acquired docs personEmbs fault =
          (st, some "add_face error") ∨
       (p ∈ snap.labels ∧ add_face st c e p acquired docs personEmbs fault =
          (st.set c ⟨snap.vectors.set (snap.labels.indexOf p)
              (normalizeL2 (vmean (personEmbs ++ [e]))), snap.labels⟩, none)) ∨
       (p ∉ snap.labels ∧ add_face st c e p acquired docs personEmbs fault =
          (st.set c ⟨snap.vectors ++ [normalizeL2 (vmean (personEmbs ++ [e]))],
              snap.labels ++ [p]⟩, none))) := by
  cases hsc : st c with
  | none =>
      left
      exact ⟨rfl, by rw [add_face, hsc]⟩
  | some snap =>
      right
      refine ⟨snap, rfl, ?_⟩
      rw [add_face, hsc]
      dsimp only
      split_ifs with h1 h2 h3
      · exact Or.inl rfl
      · exact Or.inr (Or.inl rfl)
      · exact Or.inr (Or.inr (Or.inl ⟨h3, rfl⟩))
      · exact Or.inr (Or.inr (Or.inr ⟨h3, rfl⟩))

theorem delete_person_cases (st : Store) (c : String) (p : Int)
    (acquired : Bool) (fault : Bool) :
    (st c = none ∧ delete_person st c p acquired fault = (st, none)) ∨
    ∃ snap, st c = some snap ∧
      (delete_person st c p acquired fault = (st, some "Could not acquire lock") ∨
       delete_person st c p acquired fault = (st, some "delete_person error") ∨
       (p ∈ snap.labels ∧
         ((∃ vs ls, rebuildWithout snap.vectors snap.labels
              (snap.labels.indexOf p) = some (vs, ls) ∧
            delete_person st c p acquired fault = (st.set c ⟨vs, ls⟩, none)) ∨
          (rebuildWithout snap.vectors snap.labels (snap.labels.indexOf p) = none ∧
            delete_person st c p acquired fault = (st, some "IndexError")))) ∨
       (p ∉ snap.labels ∧ delete_person st c p acquired fault = (st, none))) := by
  cases hsc : st c with
  | none =>
      left
      exact ⟨rfl, by rw [delete_person, hsc]⟩
  | some snap =>
      right
      refine ⟨snap, rfl, ?_⟩
      rw [delete_person, hsc]
      dsimp only
      split_ifs with h1 h2 h3
      · exact Or.inl rfl
      · exact Or.inr (Or.inl rfl)
      · cases hrb : rebuildWithout snap.vectors snap.labels
          (snap.labels.indexOf p) with
        | none => exact Or.inr (Or.inr (Or.inl ⟨h3, Or.inr ⟨rfl, rfl⟩⟩))
        | some vl =>
            obtain ⟨vs, ls⟩ := vl
            exact Or.inr (Or.inr (Or.inl ⟨h3, Or.inl ⟨vs, ls, rfl, rfl⟩⟩))
      · exact Or.inr (Or.inr (Or.inr ⟨h3, rfl⟩))

theorem delete_face_cases (st : Store) (c : String) (p : Int)
    (acquired : Bool) (personEmbs : List Vec) (fault : Bool) :
    (st c = none ∧ delete_face st c p acquired personEmbs fault = (st, none)) ∨
    ∃ snap, st c = some snap ∧
      (delete_face st c p acquired personEmbs fault =
          (st, some "Could not acquire lock") ∨
       delete_face st c p acquired personEmbs fault =
          (st, some "delete_face error") ∨
       (p ∈ snap.labels ∧
         ((∃ vs ls, rebuildWithout snap.vectors snap.labels
              (snap.labels.indexOf p) = some (vs, ls) ∧
            delete_face st c p acquired personEmbs fault =
              (st.set c ⟨vs, ls⟩, none)) ∨
          (rebuildWithout snap.vectors snap.labels (snap.labels.indexOf p) = none ∧
            delete_face st c p acquired personEmbs fault =
              (st, some "IndexError")) ∨
          delete_face st c p acquired personEmbs fault =
            (st.set c ⟨snap.vectors.set (snap.labels.indexOf p)
                (normalizeL2 (vmean personEmbs)), snap.labels⟩, none))) ∨
       (p ∉ snap.labels ∧ delete_face st c p acquired personEmbs fault =
          (st, none))) := by
  cases hsc : st c with
  | none =>
      left
      exact ⟨rfl, by rw [delete_face, hsc]⟩
  | some snap =>
      right
      refine ⟨snap, rfl, ?_⟩
      rw [delete_face, hsc]
      dsimp only
      split_ifs with h1 h2 h3 h4 h5
      · exact Or.inl rfl
      · exact Or.inr (Or.inl rfl)
      · cases hrb : rebuildWithout snap.vectors snap.labels
          (snap.labels.indexOf p) with
        | none => exact Or.inr (Or.inr (Or.inl ⟨h4, Or.inr (Or.inl ⟨rfl, rfl⟩)⟩))
        | some vl =>
            obtain ⟨vs, ls⟩ := vl
            exact Or.inr (Or.inr (Or.inl ⟨h4, Or.inl ⟨vs, ls, rfl, rfl⟩⟩))
      · exact Or.inr (Or.inr (Or.inr ⟨h4, rfl⟩))
      · exact Or.inr (Or.inr (Or.inl ⟨h5, Or.inr (Or.inr rfl)⟩))
      · exact Or.inr (Or.inr (Or.inr ⟨h5, rfl⟩))

/-! ## Shared facts about the concrete witness states -/

theorem storeInv_st0 : StoreInv st0 := by
  intro c snap h
  simp [st0] at h

theorem snapInv_snap1 : SnapInv snap1 := by
  simp [SnapInv, snap1]

theorem st1_faces : st1 "faces" = some snap1 := by
  simp [st1]

theorem storeInv_st1 : StoreInv st1 := by
  intro c snap h
  by_cases hc : c = "faces"
  · subst hc
    rw [st1_faces] at h
    cases h
    exact snapInv_snap1
  · simp only [st1, if_neg hc] at h
    exact Option.noConfusion h

theorem create_index_storeInv {st : Store} (hst : StoreInv st) (c : String)
    (acquired : Bool) (docs : List FaceDoc) (fault : Bool) :
    StoreInv (create_index st c acquired docs fault).1 := by
  rcases create_index_cases st c acquired docs fault with h | h | ⟨snap, hcc, h⟩
  · rw [h]; exact hst
  · rw [h]; exact hst
  · rw [h]; exact hst.set (createIndexCompute_inv hcc) c

/-! ## Claim theorems -/

/-- C6: `release_lock(key, owner)` deletes the lock entry only when its
current owner token equals the caller's token; when the lease expired and a
different owner holds the lock, the entry (and the whole lock table) is left
untouched, and when the caller still owns it only that one entry is
removed. -/
theorem release_lock_owner_check (lk : Locks) (key : String) (pid owner : Int)
    (h : lk key = some owner) :
    (owner ≠ pid → release_lock lk key pid = lk) ∧
    (owner = pid → release_lock lk key pid key = none ∧
      ∀ k, k ≠ key → release_lock lk key pid k = lk k) := by
  constructor
  · intro hne
    rw [release_lock, h]
    exact if_neg hne
  · intro he
    simp only [release_lock, h]
    rw [if_pos he]
    exact ⟨by simp [Locks.del], fun k hk => by simp [Locks.del, hk]⟩

/-- Witness for C6 at the concrete lock table `lk1` (owner pid 42): a caller
with pid 7 leaves the table unchanged, the owner's own release removes the
entry. -/
theorem release_lock_owner_check_witness :
    release_lock lk1 "lock:faces" 7 = lk1 ∧
      release_lock lk1 "lock:faces" 42 "lock:faces" = none :=
  ⟨(release_lock_owner_check lk1 "lock:faces" 7 42 (by simp [lk1])).1
      (by decide),
   ((release_lock_owner_check lk1 "lock:faces" 42 42 (by simp [lk1])).2
      rfl).1⟩

/-- C7 counterexample: `create_index` on an absent collection whose lock
cannot be acquired returns normally — error channel empty, store unchanged —
so the lock-timeout is only logged, not surfaced to the caller. -/
theorem create_index_lock_timeout_counterexample :
    create_index st0 "faces" false docsDup false = (st0, none) := by
  rw [create_index]
  simp [st0]

/-- C7 (amended): `add_face` (on a present collection), `delete_person` and
`delete_face` surface a lock-acquisition timeout as a raised exception with
the store untouched; `create_index` — and therefore `add_face`'s delegation
to it on an absent collection — swallows the timeout, logging a warning and
returning normally with the store untouched. -/
theorem lock_timeout_amended (st : Store) (c : String) (e : Vec) (p : Int)
    (docs : List FaceDoc) (personEmbs : List Vec) (fault : Bool)
    (snap : Snapshot) (h : st c = some snap) :
    ((add_face st c e p false docs personEmbs fault).2.isSome ∧
      (add_face st c e p false docs personEmbs fault).1 = st) ∧
    ((delete_person st c p false fault).2.isSome ∧
      (delete_person st c p false fault).1 = st) ∧
    ((delete_face st c p false personEmbs fault).2.isSome ∧
      (delete_face st c p false personEmbs fault).1 = st) ∧
    (∀ (st2 : Store) (c2 : String) (docs2 : List FaceDoc) (fault2 : Bool),
      (create_index st2 c2 false docs2 fault2).2 = none ∧
      (create_index st2 c2 false docs2 fault2).1 = st2) := by
  refine ⟨?_, ?_, ?_, ?_⟩
  · rw [add_face, h]
    simp
  · rw [delete_person, h]
    simp
  · rw [delete_face, h]
    simp
  · intro st2 c2 docs2 fault2
    rw [create_index]
    by_cases h2 : (st2 c2).isSome <;> simp [h2]

/-- Witness for C7 (amended) at the concrete store `st1`. -/
theorem lock_timeout_amended_witness :
    ((add_face st1 "faces" [0, 1] 7 false [] [] false).2.isSome ∧
      (add_face st1 "faces" [0, 1] 7 false [] [] false).1 = st1) ∧
    ((delete_person st1 "faces" 7 false false).2.isSome ∧
      (delete_person st1 "faces" 7 false false).1 = st1) ∧
    ((delete_face st1 "faces" 7 false [] false).2.isSome ∧
      (delete_face st1 "faces" 7 false [] false).1 = st1) ∧
    (∀ (st2 : Store) (c2 : String) (docs2 : List FaceDoc) (fault2 : Bool),
      (create_index st2 c2 false docs2 fault2).2 = none ∧
      (create_index st2 c2 false docs2 fault2).1 = st2) :=
  lock_timeout_amended st1 "faces" [0, 1] 7 [] [] false snap1 st1_faces

/-- C2: starting from any store whose committed snapshots all pair equally
long vector and label lists, every operation of the matcher commits only
snapshots with `len(vectors) = len(labels)`; each commit is one atomic
update of the paired snapshot (a single `Store.set`), so a reader never
observes one list updated without the other. -/
theorem committed_snapshot_length_invariant (st : Store) (hst : StoreInv st)
    (c : String) (e : Vec) (p : Int) (acquired : Bool) (docs : List FaceDoc)
    (personEmbs : List Vec) (fault : Bool) :
    StoreInv (create_index st c acquired docs fault).1 ∧
    StoreInv (add_face st c e p acquired docs personEmbs fault).1 ∧
    StoreInv (delete_person st c p acquired fault).1 ∧
    StoreInv (delete_face st c p acquired personEmbs fault).1 := by
  refine ⟨create_index_storeInv hst c acquired docs fault, ?_, ?_, ?_⟩
  · rcases add_face_cases st c e p acquired docs personEmbs fault with
      ⟨-, h⟩ | ⟨snap, hsc, h | h | ⟨-, h⟩ | ⟨-, h⟩⟩
    · rw [h]; exact create_index_storeInv hst c acquired docs fault
    · rw [h]; exact hst
    · rw [h]; exact hst
    · rw [h]
      refine hst.set ?_ c
      have hsnap := hst c snap hsc
      rw [SnapInv, List.length_set]
      exact hsnap
    · rw [h]
      refine hst.set ?_ c
      have hsnap : snap.vectors.length = snap.labels.length := hst c snap hsc
      simp [SnapInv, hsnap]
  · rcases delete_person_cases st c p acquired fault with
      ⟨-, h⟩ | ⟨snap, hsc, h | h | ⟨-, ⟨vs, ls, hrb, h⟩ | ⟨-, h⟩⟩ | ⟨-, h⟩⟩
    · rw [h]; exact hst
    · rw [h]; exact hst
    · rw [h]; exact hst
    · have hsnap := hst c snap hsc
      rw [rebuildWithout_eq hsnap] at hrb
      cases hrb
      rw [h]
      refine hst.set ?_ c
      show (snap.vectors.eraseIdx (snap.labels.indexOf p)).length =
        (snap.labels.eraseIdx (snap.labels.indexOf p)).length
      exact eraseIdx_length_eq hsnap _
    · rw [h]; exact hst
    · rw [h]; exact hst
  · rcases delete_face_cases st c p acquired personEmbs fault with
      ⟨-, h⟩ | ⟨snap, hsc, h | h | ⟨-, ⟨vs, ls, hrb, h⟩ | ⟨-, h⟩ | h⟩ | ⟨-, h⟩⟩
    · rw [h]; exact hst
    · rw [h]; exact hst
    · rw [h]; exact hst
    · have hsnap := hst c snap hsc
      rw [rebuildWithout_eq hsnap] at hrb
      cases hrb
      rw [h]
      refine hst.set ?_ c
      show (snap.vectors.eraseIdx (snap.labels.indexOf p)).length =
        (snap.labels.eraseIdx (snap.labels.indexOf p)).length
      exact eraseIdx_length_eq hsnap _
    · rw [h]; exact hst
    · rw [h]
      refine hst.set ?_ c
      have hsnap := hst c snap hsc
      rw [SnapInv, List.length_set]
      exact hsnap
    · rw [h]; exact hst

/-- Witness for C2 at the concrete store `st1`. -/
theorem committed_snapshot_length_invariant_witness :
    StoreInv (create_index st1 "faces" true docsDup false).1 ∧
    StoreInv (add_face st1 "faces" [0, 1] 7 true docsDup [[1, 0]] false).1 ∧
    StoreInv (delete_person st1 "faces" 7 true false).1 ∧
    StoreInv (delete_face st1 "faces" 7 true [[1, 0]] false).1 :=
  committed_snapshot_length_invariant st1 storeInv_st1 "faces" [0, 1] 7 true
    docsDup [[1, 0]] false

/-- C3: if a mutating operation reports an exception, the previously
committed store is left exactly as it was; and in every case the store after
the operation is either unchanged or the old store with one collection
rebound to a fully-constructed new snapshot in a single atomic update —
never a partially mutated state. -/
theorem mutating_op_error_preserves_store (st : Store) (c : String) (e : Vec)
    (p : Int) (acquired : Bool) (docs : List FaceDoc) (personEmbs : List Vec)
    (fault : Bool) :
    (((create_index st c acquired docs fault).2 ≠ none →
        (create_index st c acquired docs fault).1 = st) ∧
      ((create_index st c acquired docs fault).1 = st ∨
        ∃ snap, (create_index st c acquired docs fault).1 = st.set c snap)) ∧
    (((add_face st c e p acquired docs personEmbs fault).2 ≠ none →
        (add_face st c e p acquired docs personEmbs fault).1 = st) ∧
      ((add_face st c e p acquired docs personEmbs fault).1 = st ∨
        ∃ snap, (add_face st c e p acquired docs personEmbs fault).1 =
          st.set c snap)) ∧
    (((delete_person st c p acquired fault).2 ≠ none →
        (delete_person st c p acquired fault).1 = st) ∧
      ((delete_person st c p acquired fault).1 = st ∨
        ∃ snap, (delete_person st c p acquired fault).1 = st.set c snap)) ∧
    (((delete_face st c p acquired personEmbs fault).2 ≠ none →
        (delete_face st c p acquired personEmbs fault).1 = st) ∧
      ((delete_face st c p acquired personEmbs fault).1 = st ∨
        ∃ snap, (delete_face st c p acquired personEmbs fault).1 =
          st.set c snap)) := by
  have hci : ((create_index st c acquired docs fault).2 ≠ none →
      (create_index st c acquired docs fault).1 = st) ∧
      ((create_index st c acquired docs fault).1 = st ∨
        ∃ snap, (create_index st c acquired docs fault).1 = st.set c snap) := by
    rcases create_index_cases st c acquired docs fault with h | h | ⟨snap, -, h⟩
    · rw [h]; exact ⟨fun _ => rfl, Or.inl rfl⟩
    · rw [h]; exact ⟨fun _ => rfl, Or.inl rfl⟩
    · rw [h]; exact ⟨fun hne => absurd rfl hne, Or.inr ⟨snap, rfl⟩⟩
  refine ⟨hci, ?_, ?_, ?_⟩
  · rcases add_face_cases st c e p acquired docs personEmbs fault with
      ⟨-, h⟩ | ⟨snap, -, h | h | ⟨-, h⟩ | ⟨-, h⟩⟩
    · rw [h]; exact hci
    · rw [h]; exact ⟨fun _ => rfl, Or.inl rfl⟩
    · rw [h]; exact ⟨fun _ => rfl, Or.inl rfl⟩
    · rw [h]; exact ⟨fun hne => absurd rfl hne, Or.inr ⟨_, rfl⟩⟩
    · rw [h]; exact ⟨fun hne => absurd rfl hne, Or.inr ⟨_, rfl⟩⟩
  · rcases delete_person_cases st c p acquired fault with
      ⟨-, h⟩ | ⟨snap, -, h | h | ⟨-, ⟨vs, ls, -, h⟩ | ⟨-, h⟩⟩ | ⟨-, h⟩⟩
    · rw [h]; exact ⟨fun _ => rfl, Or.inl rfl⟩
    · rw [h]; exact ⟨fun _ => rfl, Or.inl rfl⟩
    · rw [h]; exact ⟨fun _ => rfl, Or.inl rfl⟩
    · rw [h]; exact ⟨fun hne => absurd rfl hne, Or.inr ⟨_, rfl⟩⟩
    · rw [h]; exact ⟨fun _ => rfl, Or.inl rfl⟩
    · rw [h]; exact ⟨fun _ => rfl, Or.inl rfl⟩
  · rcases delete_face_cases st c p acquired personEmbs fault with
      ⟨-, h⟩ | ⟨snap, -, h | h | ⟨-, ⟨vs, ls, -, h⟩ | ⟨-, h⟩ | h⟩ | ⟨-, h⟩⟩
    · rw [h]; exact ⟨fun _ => rfl, Or.inl rfl⟩
    · rw [h]; exact ⟨fun _ => rfl, Or.inl rfl⟩
    · rw [h]; exact ⟨fun _ => rfl, Or.inl rfl⟩
    · rw [h]; exact ⟨fun hne => absurd rfl hne, Or.inr ⟨_, rfl⟩⟩
    · rw [h]; exact ⟨fun _ => rfl, Or.inl rfl⟩
    · rw [h]; exact ⟨fun hne => absurd rfl hne, Or.inr ⟨_, rfl⟩⟩
    · rw [h]; exact ⟨fun _ => rfl, Or.inl rfl⟩

/-- Witness for C3: at the concrete stores `st1`/`st0`, a fault in each of
the four mutating operations reports an error and the store is evaluated
unchanged. -/
theorem mutating_op_error_preserves_store_witness :
    (add_face st1 "faces" [0, 1] 7 true [] [[1, 0]] true).1 = st1 ∧
    (delete_person st1 "faces" 7 true true).1 = st1 ∧
    (delete_face st1 "faces" 7 true [] true).1 = st1 ∧
    (create_index st0 "faces" true docsDup true).1 = st0 := by
  have T1 := mutating_op_error_preserves_store st1 "faces" [0, 1] 7 true []
    [[1, 0]] true
  have T0 := mutating_op_error_preserves_store st0 "faces" [0, 1] 7 true
    docsDup [] true
  refine ⟨T1.2.1.1 ?_, T1.2.2.1.1 ?_, T1.2.2.2.1 ?_, T0.1.1 ?_⟩
  · rw [add_face, st1_faces]; simp
  · rw [delete_person, st1_faces]; simp
  · rw [delete_face, st1_faces]; simp
  · rw [create_index]; simp [st0]

/-- C4: `search` acquires no lock and leaves the snapshot store and the lock
table untouched; on an absent collection, on an empty committed snapshot, or
on any internal failure it returns the `(0.0, 0)` no-match sentinel instead
of raising. -/
theorem search_no_lock_and_sentinel (st : Store) (lk : Locks) (c : String)
    (q : Vec) (fault : Bool)
    (h : st c = none ∨ st c = some ⟨[], []⟩ ∨ fault = true) :
    (searchFull st lk c q fault).1 = (st, lk) ∧
      search st c q fault = (0, 0) := by
  refine ⟨rfl, ?_⟩
  rcases h with h | h | h
  · simp [search, h]
  · simp [search, h, searchSnapshot, top1]
  · simp [search, h]

/-- Witness for C4 at the concrete empty store `st0`. -/
theorem search_no_lock_and_sentinel_witness :
    (searchFull st0 lk1 "faces" [1, 0] false).1 = (st0, lk1) ∧
      search st0 "faces" [1, 0] false = (0, 0) :=
  search_no_lock_and_sentinel st0 lk1 "faces" [1, 0] false (Or.inl rfl)

/-- C1 counterexample: a source collection of K = 2 valid 512-dimensional
records (and J = 0 invalid ones) that share one person id commits a snapshot
whose vector count and label count are 1, not K = 2 — `create_index`
averages per person instead of keeping one vector per record. -/
theorem create_index_count_counterexample :
    (∀ d ∈ docsDup, ∃ v, d.embedding = some v ∧ v.length = 512) ∧
    docsDup.length = 2 ∧
    ∃ snap, (create_index st0 "faces" true docsDup false).1 "faces" = some snap ∧
      (create_index st0 "faces" true docsDup false).2 = none ∧
      snap.labels.length = 1 ∧ snap.vectors.length = 1 := by
  have hkept : keptPairs docsDup = [(7, e512a), (7, e512b)] := by
    simp [keptPairs, docsDup]
  have hkeys : distinctKeys [(7, e512a), (7, e512b)] = [7] := by
    simp [distinctKeys]
  have hcc : createIndexCompute docsDup =
      some ⟨[normalizeL2 (vmean (groupEmbs [(7, e512a), (7, e512b)] 7))], [7]⟩ := by
    simp only [createIndexCompute, hkept, hkeys, List.isEmpty_cons,
      Bool.false_eq_true, if_false, List.map_cons, List.map_nil]
  have hci : create_index st0 "faces" true docsDup false =
      (st0.set "faces"
        ⟨[normalizeL2 (vmean (groupEmbs [(7, e512a), (7, e512b)] 7))], [7]⟩,
        none) := by
    rw [create_index, hcc]
    simp [st0]
  refine ⟨?_, rfl, ?_⟩
  · intro d hd
    simp only [docsDup, List.mem_cons, List.mem_singleton,
      List.not_mem_nil, or_false] at hd
    rcases hd with hd | hd <;> subst hd
    · exact ⟨e512a, rfl, by rw [e512a, List.length_cons, List.length_replicate]⟩
    · exact ⟨e512b, rfl, by rw [e512b, List.length_replicate]⟩
  · refine ⟨⟨[normalizeL2 (vmean (groupEmbs [(7, e512a), (7, e512b)] 7))], [7]⟩,
      ?_, ?_, rfl, rfl⟩
    · rw [hci]
      exact Store.set_self st0 "faces" _
    · rw [hci]

/-- C1 (amended): on an absent collection with the lock acquired and no
fault, `create_index` keeps exactly the records with non-null embedding and
non-null person id (there is no dimension-D filter), groups them by person
id, and commits one L2-normalized per-person mean embedding: the committed
vector and label counts both equal the number of distinct person ids among
the kept records (not the number of records); with no kept records nothing
is committed.  The vector count equals the label count by construction — the
code performs no explicit pre-commit comparison. -/
theorem create_index_amended (st : Store) (c : String) (docs : List FaceDoc)
    (h : st c = none) (hne : keptPairs docs ≠ []) :
    (∃ snap, create_index st c true docs false = (st.set c snap, none) ∧
      snap.labels = distinctKeys (keptPairs docs) ∧
      snap.labels.length = ((keptPairs docs).map Prod.fst).toFinset.card ∧
      snap.vectors.length = snap.labels.length ∧
      snap.vectors = (distinctKeys (keptPairs docs)).map
        (fun p => normalizeL2 (vmean (groupEmbs (keptPairs docs) p)))) ∧
    (∀ (docs2 : List FaceDoc) (st2 : Store) (c2 : String),
      keptPairs docs2 = [] → create_index st2 c2 true docs2 false = (st2, none)) := by
  constructor
  · have hccs : createIndexCompute docs = some
        ⟨(distinctKeys (keptPairs docs)).map
          (fun p => normalizeL2 (vmean (groupEmbs (keptPairs docs) p))),
         distinctKeys (keptPairs docs)⟩ := by
      rw [createIndexCompute]
      simp only [List.isEmpty_eq_true]
      rw [if_neg hne]
    refine ⟨⟨(distinctKeys (keptPairs docs)).map
        (fun p => normalizeL2 (vmean (groupEmbs (keptPairs docs) p))),
      distinctKeys (keptPairs docs)⟩, ?_, rfl, ?_, ?_, rfl⟩
    · rw [create_index, hccs]
      simp [h]
    · exact distinctKeys_length (keptPairs docs)
    · rw [List.length_map]
  · intro docs2 st2 c2 h2
    have hcc2 : createIndexCompute docs2 = none := by
      rw [createIndexCompute]
      simp [h2]
    rw [create_index, hcc2]
    by_cases h3 : (st2 c2).isSome <;> simp [h3]

/-- Witness for C1 (amended) at the concrete source `docsDup` and the empty
store `st0`. -/
theorem create_index_amended_witness :
    (∃ snap, create_index st0 "faces" true docsDup false =
        (st0.set "faces" snap, none) ∧
      snap.labels = distinctKeys (keptPairs docsDup) ∧
      snap.labels.length = ((keptPairs docsDup).map Prod.fst).toFinset.card ∧
      snap.vectors.length = snap.labels.length ∧
      snap.vectors = (distinctKeys (keptPairs docsDup)).map
        (fun p => normalizeL2 (vmean (groupEmbs (keptPairs docsDup) p)))) ∧
    (∀ (docs2 : List FaceDoc) (st2 : Store) (c2 : String),
      keptPairs docs2 = [] → create_index st2 c2 true docs2 false = (st2, none)) :=
  create_index_amended st0 "faces" docsDup rfl (by simp [keptPairs, docsDup])

/-- C10: the committed index never holds one vector per face record:
`create_index` commits exactly one entry per distinct person id (with
non-null embedding and person id), each an L2-normalized mean with nodup
labels; and `add_face` for a person id already in the label list replaces
that person's single vector with the normalized mean over the person's
stored embeddings plus the new one — the label list and the vector count are
unchanged, nothing is appended. -/
theorem averaged_index_semantics (st : Store) (c : String) (e : Vec) (p : Int)
    (docs personDocs : List FaceDoc) (personEmbs : List Vec) (snap : Snapshot)
    (hsc : st c = some snap) (hp : p ∈ snap.labels) :
    (∀ snap2, createIndexCompute personDocs = some snap2 →
      snap2.vectors.length =
          ((keptPairs personDocs).map Prod.fst).toFinset.card ∧
        snap2.labels.Nodup) ∧
    add_face st c e p true docs personEmbs false =
      (st.set c ⟨snap.vectors.set (snap.labels.indexOf p)
          (normalizeL2 (vmean (personEmbs ++ [e]))), snap.labels⟩, none) ∧
    ((add_face st c e p true docs personEmbs false).1 c).map
        (fun s => s.labels) = some snap.labels ∧
    ((add_face st c e p true docs personEmbs false).1 c).map
        (fun s => s.vectors.length) = some snap.vectors.length := by
  have hadd : add_face st c e p true docs personEmbs false =
      (st.set c ⟨snap.vectors.set (snap.labels.indexOf p)
          (normalizeL2 (vmean (personEmbs ++ [e]))), snap.labels⟩, none) := by
    rw [add_face, hsc]
    dsimp only
    rw [if_neg (by simp), if_neg (by simp), if_pos hp]
  refine ⟨?_, hadd, ?_, ?_⟩
  · intro snap2 h2
    obtain ⟨hl, hv⟩ := createIndexCompute_some h2
    constructor
    · rw [hv, List.length_map]
      exact distinctKeys_length (keptPairs personDocs)
    · rw [hl]
      exact distinctKeys_nodup (keptPairs personDocs)
  · rw [hadd]
    dsimp only
    rw [Store.set_self]
    rfl
  · rw [hadd]
    dsimp only
    rw [Store.set_self]
    simp [List.length_set]

/-- Witness for C10 at the concrete store `st1` (person 7 already
labelled). -/
theorem averaged_index_semantics_witness :
    (∀ snap2, createIndexCompute docsDup = some snap2 →
      snap2.vectors.length =
          ((keptPairs docsDup).map Prod.fst).toFinset.card ∧
        snap2.labels.Nodup) ∧
    add_face st1 "faces" [0, 1] 7 true [] [[1, 0]] false =
      (st1.set "faces" ⟨snap1.vectors.set (snap1.labels.indexOf 7)
          (normalizeL2 (vmean ([[1, 0]] ++ [[0, 1]]))), snap1.labels⟩, none) ∧
    ((add_face st1 "faces" [0, 1] 7 true [] [[1, 0]] false).1 "faces").map
        (fun s => s.labels) = some snap1.labels ∧
    ((add_face st1 "faces" [0, 1] 7 true [] [[1, 0]] false).1 "faces").map
        (fun s => s.vectors.length) = some snap1.vectors.length :=
  averaged_index_semantics st1 "faces" [0, 1] 7 docsDup docsDup [[1, 0]] snap1
    st1_faces (by simp [snap1])

/-- C8 counterexample: on the one-person store `st1` (person 7 labelled,
with one stored embedding in the source of truth), `add_face` commits a
vector list of length 1 — not the old list extended by the normalized input
embedding, which would have length 2. -/
theorem add_face_append_counterexample :
    ∃ snap, (add_face st1 "faces" [0, 1] 7 true [] [[1, 0]] false).1 "faces"
        = some snap ∧
      snap.labels = [7] ∧ snap.vectors.length = 1 ∧
      (snap1.vectors ++ [normalizeL2 [0, 1]]).length = 2 ∧
      snap.vectors ≠ snap1.vectors ++ [normalizeL2 [0, 1]] := by
  have hadd : add_face st1 "faces" [0, 1] 7 true [] [[1, 0]] false =
      (st1.set "faces" ⟨snap1.vectors.set (snap1.labels.indexOf 7)
          (normalizeL2 (vmean ([[1, 0]] ++ [[0, 1]]))), snap1.labels⟩, none) := by
    rw [add_face, st1_faces]
    dsimp only
    rw [if_neg (by simp), if_neg (by simp), if_pos (by simp [snap1])]
  refine ⟨⟨snap1.vectors.set (snap1.labels.indexOf 7)
      (normalizeL2 (vmean ([[1, 0]] ++ [[0, 1]]))), snap1.labels⟩, ?_, ?_, ?_, ?_, ?_⟩
  · rw [hadd]
    exact Store.set_self st1 "faces" _
  · rfl
  · simp [List.length_set, snap1]
  · simp [snap1]
  · intro heq
    have hlen := congrArg List.length heq
    rw [List.length_set, List.length_append] at hlen
    simp [snap1] at hlen

/-- C8 (amended): for a collection whose snapshot is present (lock acquired,
no fault), `add_face` pulls the person's stored embeddings from the source
of truth, appends the input embedding, and commits the L2-normalized mean of
that list: a person id already in the label list has its single vector
replaced in place (labels unchanged); a new person id gets the mean vector
and the label appended.  The appended vector equals the normalized input
embedding exactly when the person has no stored embeddings, since
`mean([e]) = e`. -/
theorem add_face_amended (st : Store) (c : String) (e : Vec) (p : Int)
    (docs : List FaceDoc) (personEmbs : List Vec) (snap : Snapshot)
    (hsc : st c = some snap) :
    (p ∈ snap.labels → add_face st c e p true docs personEmbs false =
      (st.set c ⟨snap.vectors.set (snap.labels.indexOf p)
          (normalizeL2 (vmean (personEmbs ++ [e]))), snap.labels⟩, none)) ∧
    (p ∉ snap.labels → add_face st c e p true docs personEmbs false =
      (st.set c ⟨snap.vectors ++ [normalizeL2 (vmean (personEmbs ++ [e]))],
          snap.labels ++ [p]⟩, none)) ∧
    vmean ([] ++ [e]) = e := by
  refine ⟨?_, ?_, ?_⟩
  · intro hp
    rw [add_face, hsc]
    dsimp only
    rw [if_neg (by simp), if_neg (by simp), if_pos hp]
  · intro hp
    rw [add_face, hsc]
    dsimp only
    rw [if_neg (by simp), if_neg (by simp), if_neg hp]
  · show vmean [e] = e
    rw [vmean]
    simp

/-- Witness for C8 (amended) at the concrete store `st1`. -/
theorem add_face_amended_witness :
    (7 ∈ snap1.labels → add_face st1 "faces" [0, 1] 7 true [] [[1, 0]] false =
      (st1.set "faces" ⟨snap1.vectors.set (snap1.labels.indexOf 7)
          (normalizeL2 (vmean ([[1, 0]] ++ [[0, 1]]))), snap1.labels⟩, none)) ∧
    (7 ∉ snap1.labels → add_face st1 "faces" [0, 1] 7 true [] [[1, 0]] false =
      (st1.set "faces" ⟨snap1.vectors ++ [normalizeL2 (vmean ([[1, 0]] ++ [[0, 1]]))],
          snap1.labels ++ [7]⟩, none)) ∧
    vmean ([] ++ [[0, 1]]) = [0, 1] :=
  add_face_amended st1 "faces" [0, 1] 7 [] [[1, 0]] snap1 st1_faces

theorem search_only_sentinel_if_not_label {st' : Store} {c : String} {p : Int}
    {snap' : Snapshot} (h : st' c = some snap') (hnp : p ∉ snap'.labels)
    (q : Vec) (fault : Bool) :
    (search st' c q fault).2 = p → search st' c q fault = (0, 0) := by
  intro hq
  rw [search] at hq ⊢
  by_cases hf : fault
  · rw [if_pos hf] at hq ⊢
  · rw [if_neg hf] at hq ⊢
    rw [h] at hq ⊢
    dsimp only at hq ⊢
    rcases searchSnapshot_cases snap' q with he | hm
    · exact he
    · rw [hq] at hm
      exact absurd hm hnp

/-- C9: `delete_person` on a present snapshot (lock acquired, no fault)
commits a rebuilt index containing every entry except those labelled `p`:
afterwards `p` appears nowhere in the committed label list, and for every
query embedding a subsequent `search` can return `p` only as the `(0.0, 0)`
no-match sentinel, never as a match. -/
theorem delete_person_removes_person (st : Store) (c : String) (p : Int)
    (snap : Snapshot) (hsc : st c = some snap) (hinv : SnapInv snap)
    (hnd : snap.labels.Nodup) :
    (delete_person st c p true false).2 = none ∧
    ∃ vs ls, (delete_person st c p true false).1 c = some ⟨vs, ls⟩ ∧
      p ∉ ls ∧ vs.length = ls.length ∧
      vs.zip ls = (snap.vectors.zip snap.labels).filter (fun pr => pr.2 ≠ p) ∧
      ∀ (q : Vec) (fault : Bool),
        (search (delete_person st c p true false).1 c q fault).2 = p →
          search (delete_person st c p true false).1 c q fault = (0, 0) := by
  have hinv' : snap.vectors.length = snap.labels.length := hinv
  by_cases hp : p ∈ snap.labels
  · have hD : delete_person st c p true false =
        (st.set c ⟨snap.vectors.eraseIdx (snap.labels.indexOf p),
          snap.labels.eraseIdx (snap.labels.indexOf p)⟩, none) := by
      rw [delete_person, hsc]
      dsimp only
      rw [if_neg (by simp), if_neg (by simp), if_pos hp,
        rebuildWithout_eq hinv']
    have hnotin : p ∉ snap.labels.eraseIdx (snap.labels.indexOf p) := by
      rw [List.eraseIdx_indexOf_eq_erase]
      exact hnd.not_mem_erase
    refine ⟨by rw [hD], snap.vectors.eraseIdx (snap.labels.indexOf p),
      snap.labels.eraseIdx (snap.labels.indexOf p), ?_, hnotin, ?_, ?_, ?_⟩
    · rw [hD]
      exact Store.set_self st c _
    · exact eraseIdx_length_eq hinv' _
    · exact zip_eraseIdx_filter snap.labels snap.vectors p hinv' hnd hp
    · intro q fault
      have hlook : (delete_person st c p true false).1 c =
          some ⟨snap.vectors.eraseIdx (snap.labels.indexOf p),
            snap.labels.eraseIdx (snap.labels.indexOf p)⟩ := by
        rw [hD]
        exact Store.set_self st c _
      exact search_only_sentinel_if_not_label hlook hnotin q fault
  · have hD : delete_person st c p true false = (st, none) := by
      rw [delete_person, hsc]
      dsimp only
      rw [if_neg (by simp), if_neg (by simp), if_neg hp]
    refine ⟨by rw [hD], snap.vectors, snap.labels, ?_, hp, hinv', ?_, ?_⟩
    · rw [hD]
      exact hsc
    · refine (List.filter_eq_self.2 ?_).symm
      intro pr hpr
      simp only [decide_eq_true_eq]
      intro hpe
      exact hp (hpe ▸ (List.of_mem_zip hpr).2)
    · intro q fault
      have hlook : (delete_person st c p true false).1 c = some snap := by
        rw [hD]
        exact hsc
      have hnp : p ∉ (⟨snap.vectors, snap.labels⟩ : Snapshot).labels := hp
      exact search_only_sentinel_if_not_label hlook hp q fault

/-- Witness for C9 at the concrete store `st1` (delete the only person,
id 7). -/
theorem delete_person_removes_person_witness :
    (delete_person st1 "faces" 7 true false).2 = none ∧
    ∃ vs ls, (delete_person st1 "faces" 7 true false).1 "faces" = some ⟨vs, ls⟩ ∧
      (7 : Int) ∉ ls ∧ vs.length = ls.length ∧
      vs.zip ls = (snap1.vectors.zip snap1.labels).filter (fun pr => pr.2 ≠ 7) ∧
      ∀ (q : Vec) (fault : Bool),
        (search (delete_person st1 "faces" 7 true false).1 "faces" q fault).2 = 7 →
          search (delete_person st1 "faces" 7 true false).1 "faces" q fault =
            (0, 0) :=
  delete_person_removes_person st1 "faces" 7 snap1 st1_faces snapInv_snap1
    (by simp [snap1])

/-- C5 counterexample: on the committed store `st1` and the query `[-1, 0]`
the raw top-1 cosine score is `-1`.  `RedisFaceMatcher.search` returns `-1`
itself (the `/face/recognize` route forwards it unchanged as `similarity`),
not `-1 * 100`; and `FaceRecognition.search_face` reports
`abs(round(-1 * 100, 3)) = 100`, not `-100`.  No caller-visible similarity
equals the raw inner-product score multiplied by 100. -/
theorem similarity_times_100_counterexample :
    search st1 "faces" [-1, 0] false = (-1, 7) ∧
    reportScore (-1) = 100 ∧
    (search st1 "faces" [-1, 0] false).1 ≠ (-1 : ℝ) * 100 ∧
    reportScore (-1) ≠ (-1 : ℝ) * 100 := by
  have hsum : sumSq [-1, 0] = 1 := by norm_num [sumSq, dot]
  have hnorm : normalizeL2 [-1, 0] = [-1, 0] := by
    rw [normalizeL2, l2norm, hsum, Real.sqrt_one]
    norm_num
  have hdot : dot [-1, 0] [1, 0] = -1 := by norm_num [dot]
  have hss : searchSnapshot snap1 [-1, 0] = (-1, 7) := by
    rw [searchSnapshot, hnorm]
    show (match top1 [-1, 0] snap1.vectors with
      | none => ((0 : ℝ), (0 : Int))
      | some (s, i) =>
        match snap1.labels.get? i with
        | none => (0, 0)
        | some pid => (s, pid)) = (-1, 7)
    have htop : top1 [-1, 0] snap1.vectors = some (-1, 0) := by
      show top1 [-1, 0] [[1, 0]] = some (-1, 0)
      rw [top1, top1, hdot]
    rw [htop]
    rfl
  have hsearch : search st1 "faces" [-1, 0] false = (-1, 7) := by
    rw [search, if_neg Bool.false_ne_true, st1_faces]
    exact hss
  have hreport : reportScore (-1) = 100 := by
    rw [reportScore, round3]
    have h1 : ((-1 : ℝ) * 100) * 1000 = ((-100000 : ℤ) : ℝ) := by norm_num
    rw [h1, round_intCast]
    norm_num
  refine ⟨hsearch, hreport, ?_, ?_⟩
  · rw [hsearch]
    norm_num
  · rw [hreport]
    norm_num

/-- C5 (amended): over a non-empty committed snapshot of unit-norm stored
vectors and a nonzero query, the score returned by `RedisFaceMatcher.search`
is the raw inner product of the L2-normalized query against one of the
stored vectors — cosine similarity in `[-1, 1]`, returned unscaled (the
`/face/recognize` route forwards it as-is).  Only the legacy
`FaceRecognition.search_face` applies the percentage convention, reporting
`abs(round(score * 100, 3))`, which is never negative. -/
theorem search_similarity_amended (st : Store) (c : String) (q : Vec)
    (snap : Snapshot) (hsc : st c = some snap) (hne : snap.vectors ≠ [])
    (hinv : SnapInv snap) (hunit : ∀ v ∈ snap.vectors, sumSq v = 1)
    (hq : sumSq q ≠ 0) :
    (∃ v ∈ snap.vectors, (search st c q false).1 = dot (normalizeL2 q) v) ∧
    -1 ≤ (search st c q false).1 ∧ (search st c q false).1 ≤ 1 ∧
    (∀ s : ℝ, reportScore s = |round3 (s * 100)| ∧ 0 ≤ reportScore s) := by
  have hred : search st c q false = searchSnapshot snap q := by
    rw [search, if_neg Bool.false_ne_true, hsc]
  obtain ⟨v, hv, hs⟩ := searchSnapshot_raw_score q hne hinv
  have hvunit := hunit v hv
  have hqunit : sumSq (normalizeL2 q) = 1 := sumSq_normalizeL2 hq
  have hbound : ((searchSnapshot snap q).1) ^ 2 ≤ 1 := by
    rw [hs]
    have hcs := dot_sq_le_sumSq_mul (normalizeL2 q) v
    rw [hqunit, hvunit] at hcs
    simpa using hcs
  have habs : |(searchSnapshot snap q).1| ≤ 1 := by
    rw [← sq_le_one_iff_abs_le_one]
    exact hbound
  refine ⟨⟨v, hv, by rw [hred]; exact hs⟩, ?_, ?_, ?_⟩
  · rw [hred]
    exact (abs_le.1 habs).1
  · rw [hred]
    exact (abs_le.1 habs).2
  · intro s
    exact ⟨rfl, abs_nonneg _⟩

/-- Witness for C5 (amended) at the concrete store `st1` and query
`[1, 0]`. -/
theorem search_similarity_amended_witness :
    (∃ v ∈ snap1.vectors, (search st1 "faces" [1, 0] false).1 =
      dot (normalizeL2 [1, 0]) v) ∧
    -1 ≤ (search st1 "faces" [1, 0] false).1 ∧
    (search st1 "faces" [1, 0] false).1 ≤ 1 ∧
    (∀ s : ℝ, reportScore s = |round3 (s * 100)| ∧ 0 ≤ reportScore s) :=
  search_similarity_amended st1 "faces" [1, 0] snap1 st1_faces
    (by simp [snap1]) snapInv_snap1
    (by
      intro v hv
      simp only [snap1, List.mem_singleton] at hv
      subst hv
      norm_num [sumSq, dot])
    (by norm_num [sumSq, dot])

end DiviFace
